import Mathlib

/-!
# Verification of the acquisition-and-normalization pipeline (`scrape_data.py`)

A shallow embedding of the scraper in `scrape_data.py`: the price extractor,
the star-rating counter, the date normalizer, the three pagination loops
(listing pages, token-API pages, GraphQL cursor pages) and the aggregator's
file write.  Pure Python string/number manipulation becomes Lean functions
on `String`/`List Char`/`ℚ`; the network is modelled as a script (a list) of
responses consumed in request order; an exception absorbed by a
`try/except` becomes an explicit constructor of the response type.
-/

/-! ## Constants (module-level constants of `scrape_data.py`) -/

def BASE : String := "https://web-scraping.dev"

def PRODUCTS_URL : String := BASE ++ "/products"

def REVIEWS_URL : String := BASE ++ "/reviews"

def TESTIMONIALS_URL : String := BASE ++ "/testimonials"

def TESTIMONIALS_API : String := BASE ++ "/api/testimonials"

/-- The GraphQL endpoint `gql_url` built in `scrape_reviews`. -/
def GQL_URL : String := BASE ++ "/api/graphql"

/-! ## Python string helpers

`str.split()` with no argument splits on runs of whitespace and discards
empty pieces; `text_blob.replace("$", " ")` is a character-for-character
replacement since both pattern and replacement are single characters. -/

/-- The whitespace characters recognised by Python's `str.split()`
(ASCII space, tab, newline, carriage return, vertical tab, form feed). -/
def isPySpace (c : Char) : Bool :=
  c = ' ' ∨ c = '\t' ∨ c = '\n' ∨ c = '\r' ∨ c = '\x0b' ∨ c = '\x0c'

/-- Worker for `pyTokens`: `acc` holds the (reversed) characters of the
token currently being scanned. -/
def pyTokensAux : List Char → List Char → List (List Char)
  | [], acc => if acc = [] then [] else [acc.reverse]
  | c :: cs, acc =>
    if isPySpace c then
      (if acc = [] then pyTokensAux cs [] else acc.reverse :: pyTokensAux cs [])
    else pyTokensAux cs (c :: acc)

/-- Embeds Python's `s.split()` (no separator argument): maximal runs of
non-whitespace characters, with no empty tokens. -/
def pyTokens (cs : List Char) : List (List Char) := pyTokensAux cs []

/-- Embeds `text_blob.replace("$", " ")` from `scrape_products`. -/
def stripDollarChars (cs : List Char) : List Char :=
  cs.map (fun c => if c = '$' then ' ' else c)

/-! ## Python `float()` on whitespace-free tokens

`scrape_products` calls `float(token)` on tokens produced by `split()`,
so the tokens contain no whitespace.  The accepted grammar is
`[sign] (digits ["." digits?] | "." digits) [("e"|"E") [sign] digits]`,
where every digit run may contain single underscores strictly between
digits.  The value is modelled exactly as a rational. -/

/-- Numeric value of an ASCII digit character. -/
def digitVal (c : Char) : ℕ := c.toNat - 48

/-- Consumes a maximal digit run (single underscores allowed strictly
between digits), extending the accumulated value `v` over `k` digits;
returns the value, the digit count, and the unconsumed remainder. -/
def digRunGo : ℕ → ℕ → List Char → ℕ × ℕ × List Char
  | v, k, [] => (v, k, [])
  | v, k, c :: rest =>
    if c.isDigit then digRunGo (10 * v + digitVal c) (k + 1) rest
    else if c = '_' then
      match rest with
      | d :: rest2 =>
        if d.isDigit then digRunGo (10 * v + digitVal d) (k + 1) rest2
        else (v, k, c :: rest)
      | [] => (v, k, [c])
    else (v, k, c :: rest)

/-- A digit run must start with a digit; fails otherwise. -/
def digRun : List Char → Option (ℕ × ℕ × List Char)
  | [] => none
  | c :: rest => if c.isDigit then some (digRunGo (digitVal c) 1 rest) else none

/-- Mantissa of a Python float literal, returned as `(num, k, rest)` with
value `num / 10 ^ k`: either `.digits`, or `digits` optionally followed by
`.` and an optional fraction run. -/
def parseMant : List Char → Option (ℕ × ℕ × List Char)
  | '.' :: rest =>
    match digRun rest with
    | some (f, k, r2) => some (f, k, r2)
    | none => none
  | cs =>
    match digRun cs with
    | none => none
    | some (n, _, r1) =>
      match r1 with
      | '.' :: r2 =>
        match digRun r2 with
        | some (f, k, r3) => some (n * 10 ^ k + f, k, r3)
        | none => some (n, 0, r2)
      | _ => some (n, 0, r1)

/-- Optional exponent part `("e"|"E") [sign] digits` of a Python float
literal; absent exponent means exponent `0`. -/
def parseExp : List Char → Option (ℤ × List Char)
  | [] => some (0, [])
  | c :: rest =>
    if c = 'e' ∨ c = 'E' then
      match rest with
      | '+' :: r2 =>
        (match digRun r2 with
         | some (n, _, r3) => some ((n : ℤ), r3)
         | none => none)
      | '-' :: r2 =>
        (match digRun r2 with
         | some (n, _, r3) => some (-(n : ℤ), r3)
         | none => none)
      | r2 =>
        (match digRun r2 with
         | some (n, _, r3) => some ((n : ℤ), r3)
         | none => none)
    else some (0, c :: rest)

/-- The exact rational value `num / 10 ^ k * 10 ^ e` of a parsed float
literal, written as a single normalized fraction so that it evaluates by
kernel reduction. -/
def floatVal (num k : ℕ) (e : ℤ) : ℚ :=
  if 0 ≤ e then mkRat ((num * 10 ^ e.toNat : ℕ) : ℤ) (10 ^ k)
  else mkRat (num : ℤ) (10 ^ (k + (-e).toNat))

/-- Unsigned Python float literal: mantissa then optional exponent, with
nothing left over. -/
def pyFloatMag (cs : List Char) : Option ℚ :=
  match parseMant cs with
  | none => none
  | some (num, k, r1) =>
    match parseExp r1 with
    | none => none
    | some (e, r2) =>
      if r2 = [] then some (floatVal num k e) else none

/-- Embeds Python's `float(token)` on a whitespace-free token, as the exact
rational value of the accepted literal (`none` where `float` raises
`ValueError`). -/
def pyFloatQ : List Char → Option ℚ
  | [] => none
  | c :: r =>
    if c = '-' then Option.map (fun x => -x) (pyFloatMag r)
    else if c = '+' then pyFloatMag r
    else pyFloatMag (c :: r)

/-! ## Price extraction (`scrape_products`, lines 84–92)

```python
price = None
for token in text_blob.replace("$", " ").split():
    try:
        if "." in token:
            price = float(token)
            break
    except Exception:
        pass
```
-/

/-- The token loop: the first token containing `'.'` whose `float` parse
succeeds sets the price and breaks; a failed parse is absorbed by the
`except` and the loop continues. -/
def priceLoop : List (List Char) → Option ℚ
  | [] => none
  | t :: ts =>
    if '.' ∈ t then
      match pyFloatQ t with
      | some q => some q
      | none => priceLoop ts
    else priceLoop ts

/-- Embeds the whole price-extraction block of `scrape_products`. -/
def extract_price (blob : String) : Option ℚ :=
  priceLoop (pyTokens (stripDollarChars blob.data))

/-- The specification's description of price extraction: after stripping
`$` and splitting on whitespace, the value of the first token that
contains a decimal point and parses as a float. -/
def firstDecimalToken (blob : String) : Option ℚ :=
  (pyTokens (stripDollarChars blob.data)).findSome?
    (fun t => if '.' ∈ t then pyFloatQ t else none)

lemma priceLoop_eq_findSome (ts : List (List Char)) :
    priceLoop ts = ts.findSome? (fun t => if '.' ∈ t then pyFloatQ t else none) := by
  induction ts with
  | nil => rfl
  | cons t ts ih =>
    rw [priceLoop, List.findSome?_cons]
    by_cases hdot : '.' ∈ t
    · simp only [hdot, if_pos]
      cases pyFloatQ t with
      | none => simpa using ih
      | some q => simp
    · simp only [hdot, if_neg, not_false_iff]
      simpa using ih

/-- C3: price extraction returns the floating value of the first
whitespace-delimited token (after replacing `$` by a space) that contains
a decimal point and parses as a float, `none` when no such token exists;
in particular `"Sale $19.99 was $24.99"` yields `19.99` and
`"Free shipping"` yields `none`. -/
theorem price_first_decimal_token :
    (∀ blob : String, extract_price blob = firstDecimalToken blob) ∧
    extract_price "Sale $19.99 was $24.99" = some (1999 / 100 : ℚ) ∧
    extract_price "Free shipping" = none := by
  refine ⟨fun blob => priceLoop_eq_findSome _, ?_, by decide⟩
  have h : extract_price "Sale $19.99 was $24.99" = some (mkRat 1999 100) := by decide
  rw [h]
  norm_num [mkRat, Rat.normalize]

/-! ## Products (`scrape_products`, lines 68–106)

A page of the listing is modelled by the list of its item-name anchors
(`soup.select("h3 a")`); each anchor carries its trimmed visible text, its
`href` attribute, and the text of its enclosing block
(`a.find_parent().get_text(" ", strip=True)`).  The network is a script:
the list of successive pages served for `?page=1, ?page=2, ...`. -/

structure PAnchor where
  text : String
  href : Option String
  parent_text : String
deriving DecidableEq

/-- The `Product` dataclass. -/
structure Product where
  name : String
  price : Option ℚ
  product_url : String
  page_url : String
deriving DecidableEq

/-- Modelled from the spec: "resolve absolute product URL by joining
against the site base" (`urllib.parse.urljoin(BASE, href)`; the site base
has no path, so a root-relative href is concatenated and an
already-absolute href is returned unchanged). -/
def urljoin (base rel : String) : String :=
  if rel = "" then base
  else if "https://".isPrefixOf rel ∨ "http://".isPrefixOf rel then rel
  else base ++ rel

/-- One `Product` per anchor, as built in the body of the `for a in links`
loop of `scrape_products`. -/
def mkProduct (page : ℕ) (a : PAnchor) : Product :=
  { name := a.text
    price := extract_price a.parent_text
    product_url := urljoin BASE (a.href.getD "")
    page_url := PRODUCTS_URL ++ "?page=" ++ toString page }

/-- The `while True` loop of `scrape_products` over a script of served
pages: each consumed script entry is one page request; a page with zero
anchors breaks the loop.  Returns the accumulated products and the number
of page requests issued. -/
def productsRunFrom (acc : List Product) (page : ℕ) :
    List (List PAnchor) → List Product × ℕ
  | [] => (acc, 0)
  | links :: rest =>
    if links = [] then (acc, 1)
    else
      let acc2 := acc ++ links.map (mkProduct page)
      let q := productsRunFrom acc2 (page + 1) rest
      (q.1, q.2 + 1)

/-- `scrape_products` run against a script of served pages. -/
def scrape_products (pages : List (List PAnchor)) : List Product × ℕ :=
  productsRunFrom [] 1 pages

/-! ## Testimonials (`scrape_testimonials`, lines 109–149)

A card is modelled by the text of its `.text` sub-element when present,
the whole card's text as fallback, and the result of
`card.select(".rating svg")`: `none` models a card with no `.rating`
container (the selection is empty), `some l` a container holding `l`
icons.  A fetch that raises (transport or HTTP error, absorbed by the
`try/except` around `fetch`) is the script entry `TFetch.fail`. -/

structure TCard where
  text_el : Option String
  full_text : String
  rating_icons : Option (List Unit)
deriving DecidableEq

/-- `card.select(".rating svg")`: the empty selection both when the
rating container is absent and when it holds no icon. -/
def tcardStars (c : TCard) : List Unit := c.rating_icons.getD []

/-- The `Testimonial` dataclass. -/
structure Testimonial where
  text : String
  rating : Option ℕ
  page : ℕ
  source_url : String
deriving DecidableEq

/-- One `Testimonial` per card: `rating = len(stars) if stars else None`. -/
def mkTestimonial (page : ℕ) (c : TCard) : Testimonial :=
  { text := c.text_el.getD c.full_text
    rating := if tcardStars c = [] then none else some (tcardStars c).length
    page := page
    source_url := TESTIMONIALS_API ++ "?page=" ++ toString page }

/-- One scripted outcome of the token-API fetch of a page: a raised
transport/HTTP error, or a served fragment with its parsed cards. -/
inductive TFetch where
  | fail : TFetch
  | ok : List TCard → TFetch
deriving DecidableEq

/-- The `while True` loop of `scrape_testimonials` over a script of fetch
outcomes: a raising fetch breaks the loop (the `except: break`), a page
with zero cards breaks the loop; otherwise one testimonial per card is
appended and the page number advances.  Returns the accumulated
testimonials and the number of requests issued. -/
def testiRunFrom (acc : List Testimonial) (page : ℕ) :
    List TFetch → List Testimonial × ℕ
  | [] => (acc, 0)
  | TFetch.fail :: _ => (acc, 1)
  | TFetch.ok cards :: rest =>
    if cards = [] then (acc, 1)
    else
      let acc2 := acc ++ cards.map (mkTestimonial page)
      let q := testiRunFrom acc2 (page + 1) rest
      (q.1, q.2 + 1)

/-- `scrape_testimonials` run against a script of fetch outcomes. -/
def scrape_testimonials (script : List TFetch) : List Testimonial × ℕ :=
  testiRunFrom [] 1 script

/-- C1 (counterexample): the claim says a card with a rating container but
zero icon elements yields rating 0; on the code, `rating = len(stars) if
stars else None` maps the empty selection to `None`, so such a card yields
a null rating, not 0. -/
theorem rating_empty_container_counterexample :
    (mkTestimonial 1 ⟨some "Great product", "Great product", some []⟩).rating ≠ some 0 := by
  decide

/-- C1 (amended): for every card, the rating equals the count of
rating-icon elements inside the rating container when that count is
positive; the rating is null when the icon selection is empty — both when
the container is absent and when it is present with zero icons. -/
theorem rating_from_icons (page : ℕ) (c : TCard) :
    (tcardStars c ≠ [] → (mkTestimonial page c).rating = some (tcardStars c).length) ∧
    (tcardStars c = [] → (mkTestimonial page c).rating = none) := by
  constructor <;> intro h <;> simp [mkTestimonial, h]

theorem rating_from_icons_witness :
    (mkTestimonial 2 ⟨some "Nice", "Nice", some [(), (), (), ()]⟩).rating = some 4 ∧
    (mkTestimonial 2 ⟨some "Nice", "Nice", none⟩).rating = none ∧
    (mkTestimonial 2 ⟨some "Nice", "Nice", some []⟩).rating = none :=
  ⟨(rating_from_icons 2 ⟨some "Nice", "Nice", some [(), (), (), ()]⟩).1 (by decide),
   (rating_from_icons 2 ⟨some "Nice", "Nice", none⟩).2 (by decide),
   (rating_from_icons 2 ⟨some "Nice", "Nice", some []⟩).2 (by decide)⟩

/-- C8: a fetched page with zero matching elements (zero item-name anchors
for the listing paginator, zero card elements for the token-API paginator)
makes that paginator return the already-collected records immediately:
exactly one request for that page (the one that served it), no record
emitted for it, and no request for it or any later page. -/
theorem empty_page_terminates :
    (∀ (acc : List Product) (page : ℕ) (rest : List (List PAnchor)),
        productsRunFrom acc page ([] :: rest) = (acc, 1)) ∧
    (∀ (acc : List Testimonial) (page : ℕ) (rest : List TFetch),
        testiRunFrom acc page (TFetch.ok [] :: rest) = (acc, 1)) :=
  ⟨fun _ _ _ => rfl, fun _ _ _ => rfl⟩

lemma testiRunFrom_fail_after (pres : List (List TCard)) :
    ∀ (acc : List Testimonial) (page : ℕ) (rest : List TFetch),
      (∀ cs ∈ pres, cs ≠ []) →
      testiRunFrom acc page (pres.map TFetch.ok ++ TFetch.fail :: rest) =
        ((testiRunFrom acc page (pres.map TFetch.ok)).1, pres.length + 1) := by
  induction pres with
  | nil =>
    intro acc page rest _
    simp [testiRunFrom]
  | cons cs ps ih =>
    intro acc page rest h
    have hcs : cs ≠ [] := h cs (List.mem_cons_self cs ps)
    have hps : ∀ x ∈ ps, x ≠ [] := fun x hx => h x (List.mem_cons_of_mem cs hx)
    simp only [List.map_cons, List.cons_append, testiRunFrom, hcs, ite_false, if_false,
      List.append_eq]
    rw [ih _ _ _ hps]
    simp [List.length_cons]

/-- C6: a transport or HTTP error raised while fetching testimonial page N
(`TFetch.fail`, absorbed by the `try/except` around `fetch`) is a clean
stream end: the run returns normally with exactly the testimonials
collected from the N-1 successfully served pages, and issues no request
beyond the failing one (request count is N). -/
theorem testimonial_fetch_failure_clean_stop
    (pres : List (List TCard)) (rest : List TFetch)
    (h : ∀ cs ∈ pres, cs ≠ []) :
    scrape_testimonials (pres.map TFetch.ok ++ TFetch.fail :: rest) =
      ((scrape_testimonials (pres.map TFetch.ok)).1, pres.length + 1) :=
  testiRunFrom_fail_after pres [] 1 rest h

theorem testimonial_fetch_failure_clean_stop_witness :
    scrape_testimonials
        ([[⟨some "a", "a", some [()]⟩], [⟨none, "b", none⟩]].map TFetch.ok ++
          TFetch.fail :: [TFetch.ok [⟨some "c", "c", none⟩]]) =
      ((scrape_testimonials
          ([[⟨some "a", "a", some [()]⟩], [⟨none, "b", none⟩]].map TFetch.ok)).1, 3) :=
  testimonial_fetch_failure_clean_stop
    [[⟨some "a", "a", some [()]⟩], [⟨none, "b", none⟩]]
    [TFetch.ok [⟨some "c", "c", none⟩]] (by decide)

/-! ## Sign of extracted prices (claim C7) -/

lemma priceLoop_mem (ts : List (List Char)) (q : ℚ) (h : priceLoop ts = some q) :
    ∃ t ∈ ts, pyFloatQ t = some q := by
  induction ts with
  | nil => simp [priceLoop] at h
  | cons t ts ih =>
    rw [priceLoop] at h
    by_cases hdot : '.' ∈ t
    · rw [if_pos hdot] at h
      cases hp : pyFloatQ t with
      | none =>
        rw [hp] at h
        obtain ⟨u, hu, hq⟩ := ih h
        exact ⟨u, List.mem_cons_of_mem _ hu, hq⟩
      | some q2 =>
        rw [hp] at h
        exact ⟨t, List.mem_cons_self _ _, hp.trans h⟩
    · rw [if_neg hdot] at h
      obtain ⟨u, hu, hq⟩ := ih h
      exact ⟨u, List.mem_cons_of_mem _ hu, hq⟩

lemma pyTokensAux_subset (cs : List Char) :
    ∀ (acc t : List Char), t ∈ pyTokensAux cs acc → ∀ ch ∈ t, ch ∈ cs ∨ ch ∈ acc := by
  induction cs with
  | nil =>
    intro acc t ht ch hch
    simp only [pyTokensAux] at ht
    by_cases hacc : acc = []
    · simp [hacc] at ht
    · rw [if_neg hacc] at ht
      simp only [List.mem_singleton] at ht
      subst ht
      right
      simpa using hch
  | cons c cs ih =>
    intro acc t ht ch hch
    simp only [pyTokensAux] at ht
    by_cases hsp : isPySpace c
    · rw [if_pos hsp] at ht
      by_cases hacc : acc = []
      · rw [if_pos hacc] at ht
        rcases ih [] t ht ch hch with h | h
        · exact Or.inl (List.mem_cons_of_mem _ h)
        · simp at h
      · rw [if_neg hacc] at ht
        rcases List.mem_cons.mp ht with h | h
        · subst h; right; simpa using hch
        · rcases ih [] t h ch hch with h2 | h2
          · exact Or.inl (List.mem_cons_of_mem _ h2)
          · simp at h2
    · rw [if_neg hsp] at ht
      rcases ih (c :: acc) t ht ch hch with h | h
      · exact Or.inl (List.mem_cons_of_mem _ h)
      · rcases List.mem_cons.mp h with h2 | h2
        · subst h2; exact Or.inl (List.mem_cons_self _ _)
        · exact Or.inr h2

lemma mem_pyTokens_subset (cs t : List Char) (ht : t ∈ pyTokens cs) :
    ∀ ch ∈ t, ch ∈ cs := by
  intro ch hch
  rcases pyTokensAux_subset cs [] t ht ch hch with h | h
  · exact h
  · simp at h

lemma stripDollar_no_minus (cs : List Char) (h : '-' ∈ stripDollarChars cs) :
    '-' ∈ cs := by
  simp only [stripDollarChars, List.mem_map] at h
  obtain ⟨a, ha, hav⟩ := h
  split at hav
  · exact absurd hav (by decide)
  · exact hav ▸ ha

lemma floatVal_nonneg (num k : ℕ) (e : ℤ) : 0 ≤ floatVal num k e := by
  unfold floatVal
  split <;> rw [Rat.mkRat_eq_div] <;> positivity

lemma pyFloatMag_nonneg (cs : List Char) (q : ℚ) (h : pyFloatMag cs = some q) :
    0 ≤ q := by
  unfold pyFloatMag at h
  split at h
  · exact absurd h (by simp)
  · split at h
    · exact absurd h (by simp)
    · split at h
      · injection h with h2
        exact h2 ▸ floatVal_nonneg _ _ _
      · exact absurd h (by simp)

lemma pyFloatQ_nonneg (t : List Char) (q : ℚ) (h : pyFloatQ t = some q)
    (hm : '-' ∉ t) : 0 ≤ q := by
  cases t with
  | nil => simp [pyFloatQ] at h
  | cons c r =>
    rw [pyFloatQ] at h
    by_cases hc : c = '-'
    · subst hc; exact absurd (List.mem_cons_self _ _) hm
    · rw [if_neg hc] at h
      by_cases hp : c = '+'
      · rw [if_pos hp] at h; exact pyFloatMag_nonneg _ _ h
      · rw [if_neg hp] at h; exact pyFloatMag_nonneg _ _ h

/-- Price sanity predicate of the claim: null or non-negative. -/
def nonnegOrNone : Option ℚ → Prop
  | none => True
  | some q => 0 ≤ q

instance : DecidablePred nonnegOrNone := fun o =>
  match o with
  | none => isTrue trivial
  | some q => inferInstanceAs (Decidable (0 ≤ q))

/-- C7 (counterexample): a listing page whose anchor block text carries a
decimal token with a leading minus sign yields a Product with a strictly
negative price — `float` accepts signed tokens and the code imposes no
sign restriction.  The script serves one page with such an anchor, then
an empty page. -/
theorem product_price_nonneg_counterexample :
    ¬ (∀ p ∈ (scrape_products [[⟨"Deal", some "/d", "Clearance -1.5 today"⟩], []]).1,
        nonnegOrNone p.price) := by decide

/-- C7 (amended): every Product's price field is either null or a decimal
value, and it is non-negative whenever the anchor's enclosing block text
contains no minus sign; a block text with a leading-minus decimal token
can produce a negative price. -/
theorem product_price_sign (page : ℕ) (a : PAnchor) (q : ℚ)
    (hq : (mkProduct page a).price = some q)
    (hm : '-' ∉ a.parent_text.data) : 0 ≤ q := by
  have hq2 : extract_price a.parent_text = some q := hq
  unfold extract_price at hq2
  obtain ⟨t, ht, hqt⟩ := priceLoop_mem _ _ hq2
  apply pyFloatQ_nonneg t q hqt
  intro hmem
  exact hm (stripDollar_no_minus _ (mem_pyTokens_subset _ _ ht '-' hmem))

theorem product_price_sign_witness :
    (mkProduct 1 ⟨"Box", some "/b", "Box $19.99"⟩).price = some (mkRat 1999 100) ∧
    '-' ∉ "Box $19.99".data ∧ (0 : ℚ) ≤ mkRat 1999 100 :=
  ⟨by decide, by decide,
   product_price_sign 1 ⟨"Box", some "/b", "Box $19.99"⟩ (mkRat 1999 100)
     (by decide) (by decide)⟩

/-! ## Date normalization (`parse_date_to_iso`, lines 60–65)

`dateutil.parser.parse(date_str, fuzzy=True)` is third-party library code,
not part of this repository; it is modelled from the spec below.  The
repository's own function wraps it in `try/except` and serializes the
resulting calendar date with `dt.date().isoformat()`. -/

structure PyDate where
  year : ℕ
  month : ℕ
  day : ℕ
deriving DecidableEq

/-- Gregorian leap-year rule, as used by Python's `datetime.date`. -/
def isLeap (y : ℕ) : Bool := y % 4 = 0 && (y % 100 ≠ 0 || y % 400 = 0)

def daysInMonth (y m : ℕ) : ℕ :=
  if m = 2 then (if isLeap y then 29 else 28)
  else if m = 4 ∨ m = 6 ∨ m = 9 ∨ m = 11 then 30
  else 31

/-- A calendar date representable by `datetime.date` (year 1–9999) —
the fuzzy parser only produces such dates. -/
def validDate (d : PyDate) : Bool :=
  1 ≤ d.year && d.year ≤ 9999 && 1 ≤ d.month && d.month ≤ 12 &&
    1 ≤ d.day && d.day ≤ daysInMonth d.year d.month

/-- English month names and their three-letter abbreviations, as
recognised by the date parser (case-insensitive). -/
def monthNum (t : List Char) : Option ℕ :=
  let w := String.mk (t.map Char.toLower)
  if w = "january" ∨ w = "jan" then some 1
  else if w = "february" ∨ w = "feb" then some 2
  else if w = "march" ∨ w = "mar" then some 3
  else if w = "april" ∨ w = "apr" then some 4
  else if w = "may" then some 5
  else if w = "june" ∨ w = "jun" then some 6
  else if w = "july" ∨ w = "jul" then some 7
  else if w = "august" ∨ w = "aug" then some 8
  else if w = "september" ∨ w = "sep" then some 9
  else if w = "october" ∨ w = "oct" then some 10
  else if w = "november" ∨ w = "nov" then some 11
  else if w = "december" ∨ w = "dec" then some 12
  else none

def isDigitRun (t : List Char) : Bool := !t.isEmpty && t.all Char.isDigit

def natOfDigits (t : List Char) : ℕ := t.foldl (fun v c => 10 * v + digitVal c) 0

/-- Trim surrounding punctuation from a token (the fuzzy parser tolerates
text such as a trailing comma after the day number). -/
def cleanTok (t : List Char) : List Char :=
  ((t.dropWhile fun c => !c.isAlphanum).reverse.dropWhile fun c => !c.isAlphanum).reverse

def findMonth (toks : List (List Char)) : Option ℕ := toks.findSome? monthNum

def findDay (toks : List (List Char)) : Option ℕ :=
  toks.findSome? fun t =>
    if isDigitRun t ∧ t.length ≤ 2 ∧ 1 ≤ natOfDigits t ∧ natOfDigits t ≤ 31
    then some (natOfDigits t) else none

def findYear (toks : List (List Char)) : Option ℕ :=
  toks.findSome? fun t =>
    if isDigitRun t ∧ t.length = 4 then some (natOfDigits t) else none

/-- Modelled from the spec: `dateutil.parser.parse(date_str, fuzzy=True)`
(third-party code absent from this repository) — fuzzy parsing that
"tolerates surrounding non-date text and multiple common formats": the
whitespace-separated, punctuation-trimmed tokens are scanned for a month
name, a 1–2 digit day and a 4-digit year; when no complete valid calendar
date is found the parser raises, which the embedding returns as `none`. -/
def dateutil_parse (s : String) : Option PyDate :=
  let toks := (pyTokens s.data).map cleanTok
  match findMonth toks, findDay toks, findYear toks with
  | some m, some d, some y =>
    if validDate ⟨y, m, d⟩ then some ⟨y, m, d⟩ else none
  | _, _, _ => none

/-- `datetime.date.isoformat()`: zero-padded `YYYY-MM-DD`. -/
def isoformat (d : PyDate) : String :=
  String.mk [Nat.digitChar (d.year / 1000 % 10), Nat.digitChar (d.year / 100 % 10),
    Nat.digitChar (d.year / 10 % 10), Nat.digitChar (d.year % 10), '-',
    Nat.digitChar (d.month / 10 % 10), Nat.digitChar (d.month % 10), '-',
    Nat.digitChar (d.day / 10 % 10), Nat.digitChar (d.day % 10)]

/-- Embeds `parse_date_to_iso`: the `try/except` absorbs every parser
exception into `None`; on success the result is the date part in ISO
form.  (`dateparser.parse` never returns `None`, so the `if dt` guard is
the identity on successes.) -/
def parse_date_to_iso (s : String) : Option String :=
  (dateutil_parse s).map isoformat

/-- The `YYYY-MM-DD` serialization shape: ten characters, digits in the
date positions, dashes at positions 4 and 7, no time component. -/
def isIsoDateShape (s : String) : Bool :=
  match s.data with
  | [y1, y2, y3, y4, c1, m1, m2, c2, d1, d2] =>
    y1.isDigit && y2.isDigit && y3.isDigit && y4.isDigit && c1 = '-' &&
    m1.isDigit && m2.isDigit && c2 = '-' && d1.isDigit && d2.isDigit
  | _ => false

lemma digitChar_isDigit (n : ℕ) (h : n < 10) : (Nat.digitChar n).isDigit = true := by
  interval_cases n <;> decide

lemma mod10_digitChar (n : ℕ) : (Nat.digitChar (n % 10)).isDigit = true :=
  digitChar_isDigit _ (Nat.mod_lt _ (by norm_num))

lemma isoformat_shape (d : PyDate) : isIsoDateShape (isoformat d) = true := by
  simp [isoformat, isIsoDateShape, mod10_digitChar]

/-- C9: the date normalizer is total and fallible-to-null: for every input
string it returns either null or a calendar date with no time component
serialized as `YYYY-MM-DD` (the `try/except` absorbs every parse failure,
so it never raises); `"not a date"` yields null and `"March 3, 2023"`
yields `"2023-03-03"`. -/
theorem date_normalizer_total :
    (∀ s out, parse_date_to_iso s = some out → isIsoDateShape out = true) ∧
    parse_date_to_iso "not a date" = none ∧
    parse_date_to_iso "March 3, 2023" = some "2023-03-03" := by
  refine ⟨fun s out h => ?_, by decide, by decide⟩
  unfold parse_date_to_iso at h
  obtain ⟨d, _, hfd⟩ := Option.map_eq_some'.mp h
  exact hfd ▸ isoformat_shape d

theorem date_normalizer_total_witness :
    parse_date_to_iso "March 3, 2023" = some "2023-03-03" ∧
    isIsoDateShape "2023-03-03" = true :=
  ⟨by decide, date_normalizer_total.1 "March 3, 2023" "2023-03-03" (by decide)⟩

/-! ## Reviews (`scrape_reviews`, lines 152–241)

One GraphQL response is modelled by its decoded JSON: the `errors` array
(absent modelled as `[]`, matching the falsy check `"errors" in data and
data["errors"]`), and the `reviews` block reached through
`(data.get("data") or {}).get("reviews") or {}` — the whole chain is
collapsed into one optional block, `none` covering an absent/null `data`
or `reviews`.  `rating` arrives as a JSON scalar; the `float(rating_val)`
coercion of a numeric scalar is its rational value, so the field is
modelled as the already-coerced `Option ℚ`.  The network is a script of
responses consumed in request order. -/

structure GqlNode where
  id : Option String
  date : Option String
  rating : Option ℚ
  text : Option String
deriving DecidableEq

structure GqlEdge where
  node : Option GqlNode
deriving DecidableEq

structure GqlPageInfo where
  hasNextPage : Option Bool
  endCursor : Option String
deriving DecidableEq

structure GqlReviewsBlock where
  edges : Option (List GqlEdge)
  pageInfo : Option GqlPageInfo
deriving DecidableEq

structure GqlResponse where
  errors : List String
  data_reviews : Option GqlReviewsBlock
deriving DecidableEq

/-- The `Review` dataclass. -/
structure Review where
  title : String
  text : String
  rating : Option ℚ
  date_raw : String
  date_iso : Option String
  page : ℕ
  source_url : String
deriving DecidableEq

/-- `e.get("node") or {}` — the empty dict as an all-absent node. -/
def defaultNode : GqlNode := ⟨none, none, none, none⟩

/-- The Python f-string rendering of an `Optional[str]`. -/
def pyOptStr : Option String → String
  | none => "None"
  | some s => s

/-- One `Review` per edge, as built in the `for e in edges` loop,
parameterized by the date-parsing function so that its non-invocation on
empty `date_raw` is expressible: `date_raw = str(node.get("date") or "")`
and `date_iso = parse_date_to_iso(date_raw) if date_raw else None`. -/
def mkReviewWith (dateParse : String → Option String) (after : Option String)
    (page : ℕ) (e : GqlEdge) : Review :=
  let node := e.node.getD defaultNode
  let date_raw := node.date.getD ""
  { title := ""
    text := node.text.getD ""
    rating := node.rating
    date_raw := date_raw
    date_iso := if date_raw = "" then none else dateParse date_raw
    page := page
    source_url := GQL_URL ++ " (after=" ++ pyOptStr after ++ ") id=" ++ node.id.getD "" }

/-- The record constructor actually used by the paginator. -/
def mkReview : Option String → ℕ → GqlEdge → Review :=
  mkReviewWith parse_date_to_iso

/-- `(data.get("data") or {}).get("reviews") or {}`. -/
def respBlock (r : GqlResponse) : GqlReviewsBlock := r.data_reviews.getD ⟨none, none⟩

/-- `block.get("edges") or []`. -/
def respEdges (r : GqlResponse) : List GqlEdge := (respBlock r).edges.getD []

/-- `block.get("pageInfo") or {}`. -/
def respPageInfo (r : GqlResponse) : GqlPageInfo := (respBlock r).pageInfo.getD ⟨none, none⟩

/-- `bool(page_info.get("hasNextPage"))`. -/
def respHasNext (r : GqlResponse) : Bool := (respPageInfo r).hasNextPage.getD false

/-- `page_info.get("endCursor")`. -/
def respCursor (r : GqlResponse) : Option String := (respPageInfo r).endCursor

/-- The `while True` loop of `scrape_reviews` over a script of responses,
checked in the order of the code: non-empty `errors` breaks; empty
`edges` breaks; otherwise one review per edge is appended, then
`if not has_next or not after: break` (`after` being the returned
`endCursor`, falsy when `None` or empty); otherwise the next request is
made with the new cursor.  Returns the accumulated reviews and the number
of requests issued. -/
def reviewsRunFrom (acc : List Review) (after : Option String) (page : ℕ) :
    List GqlResponse → List Review × ℕ
  | [] => (acc, 0)
  | r :: rest =>
    if r.errors ≠ [] then (acc, 1)
    else if respEdges r = [] then (acc, 1)
    else
      let acc2 := acc ++ (respEdges r).map (mkReview after page)
      if respHasNext r = false ∨ respCursor r = none ∨ respCursor r = some ""
      then (acc2, 1)
      else
        let q := reviewsRunFrom acc2 (respCursor r) (page + 1) rest
        (q.1, q.2 + 1)

/-- `scrape_reviews` run against a script of responses. -/
def scrape_reviews (script : List GqlResponse) : List Review × ℕ :=
  reviewsRunFrom [] none 1 script

/-- A response on which the loop takes the continue branch: no errors,
non-empty edges, `hasNextPage` true, non-null non-empty `endCursor`. -/
def respContinues (r : GqlResponse) : Prop :=
  r.errors = [] ∧ respEdges r ≠ [] ∧ respHasNext r = true ∧
    respCursor r ≠ none ∧ respCursor r ≠ some ""

instance (r : GqlResponse) : Decidable (respContinues r) :=
  inferInstanceAs (Decidable (r.errors = [] ∧ respEdges r ≠ [] ∧ respHasNext r = true ∧
    respCursor r ≠ none ∧ respCursor r ≠ some ""))

lemma reviewsRunFrom_cons_continue (p : GqlResponse) (L : List GqlResponse)
    (acc : List Review) (after : Option String) (page : ℕ) (h : respContinues p) :
    reviewsRunFrom acc after page (p :: L) =
      ((reviewsRunFrom (acc ++ (respEdges p).map (mkReview after page))
          (respCursor p) (page + 1) L).1,
       (reviewsRunFrom (acc ++ (respEdges p).map (mkReview after page))
          (respCursor p) (page + 1) L).2 + 1) := by
  obtain ⟨h1, h2, h3, h4, h5⟩ := h
  simp only [reviewsRunFrom]
  rw [if_neg (by simp [h1]), if_neg h2, if_neg (by simp [h3, h4, h5])]

lemma reviewsRunFrom_error_stop (pres : List GqlResponse) :
    ∀ (acc : List Review) (after : Option String) (page : ℕ)
      (r : GqlResponse) (rest : List GqlResponse),
      (∀ p ∈ pres, respContinues p) → r.errors ≠ [] →
      reviewsRunFrom acc after page (pres ++ r :: rest) =
        ((reviewsRunFrom acc after page pres).1, pres.length + 1) := by
  induction pres with
  | nil =>
    intro acc after page r rest _ herr
    simp [reviewsRunFrom, herr]
  | cons p ps ih =>
    intro acc after page r rest h herr
    have hp := h p (List.mem_cons_self _ _)
    have hps : ∀ x ∈ ps, respContinues x := fun x hx => h x (List.mem_cons_of_mem _ hx)
    rw [List.cons_append, reviewsRunFrom_cons_continue p _ _ _ _ hp,
      reviewsRunFrom_cons_continue p _ _ _ _ hp, ih _ _ _ _ _ hps herr]
    simp

/-- C4: for every processed GraphQL response, the paginator halts after
that response (exactly one response consumed, no further request)
whenever `hasNextPage` is false, regardless of the cursor, and whenever
the returned `endCursor` is null or empty, even if `hasNextPage` is true;
when no earlier termination condition applies (no errors, non-empty
edges) and `hasNextPage` is true with a non-null, non-empty cursor, it
continues with the `after` variable set to the returned `endCursor`. -/
theorem cursor_pagination_halting
    (acc : List Review) (after : Option String) (page : ℕ)
    (r : GqlResponse) (rest : List GqlResponse) :
    (respHasNext r = false → (reviewsRunFrom acc after page (r :: rest)).2 = 1) ∧
    (respCursor r = none ∨ respCursor r = some "" →
      (reviewsRunFrom acc after page (r :: rest)).2 = 1) ∧
    (respContinues r →
      reviewsRunFrom acc after page (r :: rest) =
        ((reviewsRunFrom (acc ++ (respEdges r).map (mkReview after page))
            (respCursor r) (page + 1) rest).1,
         (reviewsRunFrom (acc ++ (respEdges r).map (mkReview after page))
            (respCursor r) (page + 1) rest).2 + 1)) := by
  refine ⟨fun h => ?_, fun h => ?_, fun h => reviewsRunFrom_cons_continue r rest acc after page h⟩
  · simp only [reviewsRunFrom]
    split
    · rfl
    · split
      · rfl
      · rw [if_pos (Or.inl h)]
  · simp only [reviewsRunFrom]
    split
    · rfl
    · split
      · rfl
      · rw [if_pos (Or.inr h)]

/-- A well-formed edge used by the witnesses. -/
def sampleEdge : GqlEdge := ⟨some ⟨some "1", some "March 3, 2023", some 5, some "ok"⟩⟩

/-- Response with `hasNextPage` absent (falsy), cursor present. -/
def sampleNoNext : GqlResponse := ⟨[], some ⟨some [sampleEdge], some ⟨none, some "c"⟩⟩⟩

/-- Response with `hasNextPage` true but null cursor. -/
def sampleNoCursor : GqlResponse := ⟨[], some ⟨some [sampleEdge], some ⟨some true, none⟩⟩⟩

/-- Response on which the loop continues. -/
def sampleCont : GqlResponse := ⟨[], some ⟨some [sampleEdge], some ⟨some true, some "cur"⟩⟩⟩

theorem cursor_pagination_halting_witness :
    (reviewsRunFrom [] none 1 [sampleNoNext]).2 = 1 ∧
    (reviewsRunFrom [] none 1 [sampleNoCursor]).2 = 1 ∧
    reviewsRunFrom [] none 1 [sampleCont] =
      ((reviewsRunFrom ((respEdges sampleCont).map (mkReview none 1))
          (respCursor sampleCont) 2 []).1,
       (reviewsRunFrom ((respEdges sampleCont).map (mkReview none 1))
          (respCursor sampleCont) 2 []).2 + 1) :=
  ⟨(cursor_pagination_halting [] none 1 sampleNoNext []).1 (by decide),
   (cursor_pagination_halting [] none 1 sampleNoCursor []).2.1 (by decide),
   (cursor_pagination_halting [] none 1 sampleCont []).2.2 (by decide)⟩

/-- C5: a GraphQL response carrying a non-empty `errors` array stops the
review paginator: the request count is the prior pages plus the erroring
request only (nothing from the remainder of the script is requested), no
record is emitted from that response, and the returned collection equals
exactly the reviews collected from the prior successful pages. -/
theorem graphql_errors_stop
    (pres : List GqlResponse) (r : GqlResponse) (rest : List GqlResponse)
    (h : ∀ p ∈ pres, respContinues p) (herr : r.errors ≠ []) :
    scrape_reviews (pres ++ r :: rest) =
      ((scrape_reviews pres).1, pres.length + 1) :=
  reviewsRunFrom_error_stop pres [] none 1 r rest h herr

theorem graphql_errors_stop_witness :
    scrape_reviews ([sampleCont] ++ GqlResponse.mk ["boom"] none :: [sampleCont]) =
      ((scrape_reviews [sampleCont]).1, 2) :=
  graphql_errors_stop [sampleCont] (GqlResponse.mk ["boom"] none) [sampleCont]
    (by decide) (by decide)

/-- C10: every Review's `date_raw` is the string `str(node.get("date") or
"")` — never null by type; when the node's `date` is absent or null,
`date_raw` is the empty string, `date_iso` is null, and the date
normalizer is not invoked: the record is independent of the parsing
function. -/
theorem review_date_raw_default
    (f g : String → Option String) (after : Option String) (page : ℕ) (e : GqlEdge)
    (h : (e.node.getD defaultNode).date = none) :
    (mkReviewWith f after page e).date_raw = "" ∧
    (mkReviewWith f after page e).date_iso = none ∧
    mkReviewWith f after page e = mkReviewWith g after page e := by
  simp [mkReviewWith, h]

theorem review_date_raw_default_witness :
    (mkReviewWith (fun _ => none) (some "c") 2 ⟨some ⟨some "9", none, some 4, some "t"⟩⟩).date_raw
        = "" ∧
    (mkReviewWith (fun _ => none) (some "c") 2 ⟨some ⟨some "9", none, some 4, some "t"⟩⟩).date_iso
        = none ∧
    mkReviewWith (fun _ => none) (some "c") 2 ⟨some ⟨some "9", none, some 4, some "t"⟩⟩ =
      mkReviewWith (fun s => some s) (some "c") 2 ⟨some ⟨some "9", none, some 4, some "t"⟩⟩ :=
  review_date_raw_default (fun _ => none) (fun s => some s) (some "c") 2
    ⟨some ⟨some "9", none, some 4, some "t"⟩⟩ rfl

/-! ## The aggregator's write (`main`, lines 267–268)

```python
with open("data/scraped_data.json", "w", encoding="utf-8") as f:
    json.dump(output, f, ensure_ascii=False, indent=2)
```

`open(path, "w")` truncates the file at the output path before
`json.dump` streams the serialized document into it. -/

/-- The sequence of contents observable at the output path during the
write: the prior content (`none` when no file existed), the truncated
empty content exposed by opening in mode `"w"`, then the complete new
document.  (`json.dump` may expose further intermediate prefixes; the
truncated state alone already decides atomicity.) -/
def directWriteStates (old : Option String) (doc : String) : List (Option String) :=
  [old, some "", some doc]

/-- The atomicity property the claim asserts of the write: at every point
only the prior document or the fully-new one is observable. -/
def atomicWrite (old : Option String) (doc : String) : Prop :=
  ∀ s ∈ directWriteStates old doc, s = old ∨ s = some doc

instance (old : Option String) (doc : String) : Decidable (atomicWrite old doc) :=
  inferInstanceAs (Decidable (∀ s ∈ directWriteStates old doc, s = old ∨ s = some doc))

/-- C2 (counterexample): with prior document `"old-doc"` and new document
`"new-doc"`, the truncated empty content is observable during the write
and is neither the prior nor the new document, so the write is not atomic
from the consumer's perspective. -/
theorem aggregator_write_counterexample :
    ¬ atomicWrite (some "old-doc") "new-doc" := by decide

/-- C2 (amended): the aggregator writes the document directly to the
output path in truncating mode, not via write-to-temp-then-rename, so the
write is not atomic: the empty content is observable during every write,
and whenever the prior content and the new document are both non-empty an
observable state matches neither of them. -/
theorem aggregator_write_truncates (old : Option String) (doc : String) :
    some "" ∈ directWriteStates old doc ∧
    (old ≠ some "" → doc ≠ "" →
      ∃ s ∈ directWriteStates old doc, s ≠ old ∧ s ≠ some doc) := by
  refine ⟨by simp [directWriteStates],
    fun h1 h2 => ⟨some "", by simp [directWriteStates], fun hc => h1 hc.symm, fun hc => ?_⟩⟩
  exact h2 (Option.some.inj hc).symm

theorem aggregator_write_truncates_witness :
    some "" ∈ directWriteStates (some "A") "B" ∧
    ∃ s ∈ directWriteStates (some "A") "B", s ≠ some "A" ∧ s ≠ some "B" :=
  ⟨(aggregator_write_truncates (some "A") "B").1,
   (aggregator_write_truncates (some "A") "B").2 (by decide) (by decide)⟩
